import Mathlib

/-!
Verification of the `riemannian-score-sde` core (files
`riemannian_score_sde/sde.py` and `riemannian_score_sde/losses.py`) against
its natural-language specification.  The Python code is shallowly embedded:
points and tangent vectors of an `n`-dimensional manifold chart are `Fin n → ℝ`,
JAX PRNG keys are bit lists with an injective `split`, and the duck-typed SDE
interface is a type class.  External collaborators (the manifold geometry, the
predictor-corrector sampler, `jax.random.uniform`, the divergence estimator
factory) are modelled from the spec where their code is not part of the
repository; each such definition says so in its doc comment.
-/

open scoped BigOperators

noncomputable section

/-- A JAX PRNG key.  Keys are opaque splittable values; bit lists suffice. -/
abbrev Key := List Bool

/-- Models `jax.random.split(rng)` returning a pair of fresh keys; the code
always unpacks it as `rng, step_rng = random.split(rng)`.  Split is injective
and the two results are distinct from each other and from every key obtained
by a different split chain. -/
def split (k : Key) : Key × Key := (false :: k, true :: k)

/-- Points and tangent vectors in an `n`-dimensional chart. -/
abbrev Vec (n : ℕ) := Fin n → ℝ

/-- The manifold capability consumed by the SDE and the losses
(`random_walk`, `log_heat_kernel`, `metric.squared_norm`), plus the single
geodesic Euler-Maruyama step used by the numerical fallback sampler.
All of these are external collaborators (outside the repository), so they are
abstract fields here. -/
structure Manifold (n : ℕ) where
  random_walk : Key → Vec n → ℝ → Option (Vec n)
  log_heat_kernel : Vec n → Vec n → ℝ → ℝ
  squared_norm : Vec n → Vec n → ℝ
  em_step : Key → Vec n → ℝ → ℝ → Vec n

/-- A diffusion coefficient as returned by `coefficients`: either a scalar
(`no extra dims`) or a full square matrix, the two shapes distinguished by the
`full_diffusion_matrix` flag in the Python base class. -/
inductive DiffCoeff (n : ℕ)
  | scalar (g : ℝ)
  | matrix (G : Fin n → Fin n → ℝ)

/-- The duck-typed SDE interface of `score_sde.sde.SDE` that
`ReverseBrownian.__init__` and `ReverseBrownian.coefficients` rely on:
a manifold, a time interval, the diffusion-shape flag and the instantaneous
coefficients. -/
class SDEOps (σ : Type) (n : outParam ℕ) where
  manifold : σ → Manifold n
  t0 : σ → ℝ
  tf : σ → ℝ
  full_diffusion_matrix : σ → Bool
  coefficients : σ → Vec n → ℝ → Vec n × DiffCoeff n

/-- `Brownian` from `riemannian_score_sde/sde.py`: Brownian motion on a
compact manifold with the linear noise schedule `beta_0 .. beta_f` on
`[t0, tf]`.  The Python constructor signature is
`__init__(self, manifold, tf, t0=0, beta_0=0.1, beta_f=20)`. -/
structure Brownian (n : ℕ) where
  manifold : Manifold n
  tf : ℝ
  t0 : ℝ
  beta_0 : ℝ
  beta_f : ℝ

/-- `Brownian.beta_t`: linear interpolation of the noise schedule. -/
def Brownian.beta_t {n : ℕ} (B : Brownian n) (t : ℝ) : ℝ :=
  B.beta_0 + ((t - B.t0) / (B.tf - B.t0)) * (B.beta_f - B.beta_0)

/-- `Brownian.coefficients`: zero drift and scalar diffusion `sqrt(beta_t)`. -/
def Brownian.coefficients {n : ℕ} (B : Brownian n) (_x : Vec n) (t : ℝ) :
    Vec n × DiffCoeff n :=
  (fun _ => 0, DiffCoeff.scalar (Real.sqrt (B.beta_t t)))

/-- `Brownian.marginal_prob`: Euclidean-approximated marginal, returning a
zero mean and the std `sqrt(1 - exp(2*log_mean_coeff))`. -/
def Brownian.marginal_prob {n : ℕ} (B : Brownian n) (_x : Vec n) (t : ℝ) :
    Vec n × ℝ :=
  (fun _ => 0,
   Real.sqrt (1 - Real.exp (2 *
     (-(0.25) * t ^ 2 * (B.beta_f - B.beta_0) - 0.5 * t * B.beta_0))))

/-- `Brownian.marginal_log_prob`: heat kernel at the schedule-derived elapsed
time `s = 2*(0.25*t^2*(beta_f-beta_0) + 0.5*t*beta_0)`. -/
def Brownian.marginal_log_prob {n : ℕ} (B : Brownian n) (x0 x : Vec n) (t : ℝ) : ℝ :=
  B.manifold.log_heat_kernel x0 x
    (2 * (0.25 * t ^ 2 * (B.beta_f - B.beta_0) + 0.5 * t * B.beta_0))

instance {n : ℕ} : SDEOps (Brownian n) n where
  manifold := Brownian.manifold
  t0 := Brownian.t0
  tf := Brownian.tf
  full_diffusion_matrix := fun _ => false
  coefficients := Brownian.coefficients

/-- Modelled from the spec: the fixed-step Euler-Maruyama manifold sampler
obtained from `score_sde.sampling.get_pc_sampler(sde, N,
predictor="EulerMaruyamaManifoldPredictor", corrector=None)` (that module is
not part of this repository).  It integrates the forward Brownian SDE (zero
drift, diffusion `sqrt(beta_t)`) for `N` equal steps from `t0` to `t`,
taking one geodesic step per iteration with a freshly split key. -/
def pc_sampler {n : ℕ} (B : Brownian n) (N : ℕ) (rng : Key) (x : Vec n)
    (t : ℝ) : Vec n :=
  let dt := (t - B.t0) / (N : ℝ)
  ((List.range N).foldl
    (fun (st : Key × Vec n) (k : ℕ) =>
      let r := split st.1
      (r.1, B.manifold.em_step r.2 st.2
        (Real.sqrt (B.beta_t (B.t0 + (k : ℝ) * dt))) dt))
    (rng, x)).2

/-- `Brownian.marginal_sample`: ask the manifold for a closed-form random
walk sample; if it returns `None`, fall back to the 100-step numerical
predictor-corrector integration. -/
def Brownian.marginal_sample {n : ℕ} (B : Brownian n) (rng : Key) (x : Vec n)
    (t : ℝ) : Vec n :=
  match B.manifold.random_walk rng x t with
  | some perturbed_x => perturbed_x
  | none => pc_sampler B 100 rng x t

/-- `ReverseBrownian` from `riemannian_score_sde/sde.py`.  Its `__init__`
calls `super().__init__(sde.manifold, tf=sde.t0, t0=sde.tf)`, so the
inherited `Brownian` state (`base`) carries the swapped time interval and the
default schedule `beta_0=0.1, beta_f=20`; the forward SDE and the score
function are stored alongside. -/
structure ReverseBrownian (σ : Type) (n : ℕ) where
  base : Brownian n
  sde : σ
  score_fn : Vec n → ℝ → Vec n

/-- The `ReverseBrownian(sde, score_fn)` constructor: the superclass
initialiser receives only `(sde.manifold, tf=sde.t0, t0=sde.tf)`, so
`beta_0` and `beta_f` take their Python default values `0.1` and `20`. -/
def reverseSDE {σ : Type} {n : ℕ} [SDEOps σ n] (S : σ)
    (s_fn : Vec n → ℝ → Vec n) : ReverseBrownian σ n :=
  { base :=
      { manifold := SDEOps.manifold S
        tf := SDEOps.t0 S
        t0 := SDEOps.tf S
        beta_0 := 0.1
        beta_f := 20 }
    sde := S
    score_fn := s_fn }

/-- `Brownian.reverse`: `return ReverseBrownian(self, score_fn)`. -/
def Brownian.reverse {n : ℕ} (B : Brownian n) (s_fn : Vec n → ℝ → Vec n) :
    ReverseBrownian (Brownian n) n :=
  reverseSDE B s_fn

/-- `ReverseBrownian.reverse`: `return self.sde`. -/
def ReverseBrownian.reverse {σ : Type} {n : ℕ} (R : ReverseBrownian σ n) : σ :=
  R.sde

/-- `ReverseBrownian.coefficients`: Anderson's time-reversal formula.  The
forward coefficients are taken from the stored forward SDE at the same
`(x, t)`; the correction `G Gᵗ score` is contracted with
`einsum("...ij,...kj,...k->...i")` when `full_diffusion_matrix` is set and
with `einsum("...,...,...i->...i")` (elementwise scalar product) otherwise.
A shape that disagrees with the flag would make the `einsum` raise, which the
embedding renders as `none`. -/
def ReverseBrownian.coefficients {σ : Type} {n : ℕ} [SDEOps σ n]
    (R : ReverseBrownian σ n) (x : Vec n) (t : ℝ) :
    Option (Vec n × DiffCoeff n) :=
  let fd := SDEOps.coefficients R.sde x t
  let score := R.score_fn x t
  if SDEOps.full_diffusion_matrix R.sde then
    match fd.2 with
    | DiffCoeff.matrix G =>
        some (fun i => fd.1 i - ∑ k, (∑ j, G i j * G k j) * score k,
              DiffCoeff.matrix G)
    | DiffCoeff.scalar _ => none
  else
    match fd.2 with
    | DiffCoeff.scalar g =>
        some (fun i => fd.1 i - g * g * score i, DiffCoeff.scalar g)
    | DiffCoeff.matrix _ => none

/-- The inherited `beta_t` of a `ReverseBrownian` runs on the superclass
state written by its `__init__`. -/
def ReverseBrownian.beta_t {σ : Type} {n : ℕ} (R : ReverseBrownian σ n)
    (t : ℝ) : ℝ :=
  R.base.beta_t t

/-- The inherited `marginal_prob` of a `ReverseBrownian`. -/
def ReverseBrownian.marginal_prob {σ : Type} {n : ℕ} (R : ReverseBrownian σ n)
    (x : Vec n) (t : ℝ) : Vec n × ℝ :=
  R.base.marginal_prob x t

/-- The inherited `marginal_log_prob` of a `ReverseBrownian`. -/
def ReverseBrownian.marginal_log_prob {σ : Type} {n : ℕ}
    (R : ReverseBrownian σ n) (x0 x : Vec n) (t : ℝ) : ℝ :=
  R.base.marginal_log_prob x0 x t

/-! ## Losses (`riemannian_score_sde/losses.py`)

The loss functions are embedded at the point after the external calls
(`get_score_fn`, `marginal_sample`, `grad_marginal_log_prob`) have produced
their per-example values: the batch of predicted scores, target scores,
marginal standard deviations and squared diffusion coefficients enter as
arrays indexed by `Fin N` (batch) and `Fin d` (dimensions), exactly the
shapes the code manipulates from that point on. -/

/-- The `reduce_op` chosen by `get_dsm_loss_fn`:
`jnp.mean` along the last axis when `reduce_mean`, else
`lambda *args: 0.5 * jnp.sum(*args)` along the last axis. -/
def reduce_op (reduce_mean : Bool) {d : ℕ} (v : Fin d → ℝ) : ℝ :=
  if reduce_mean then (∑ i, v i) / (d : ℝ) else 0.5 * ∑ i, v i

/-- The DSM per-example losses (lines 69-79 of `losses.py`).  With
`like_w=False` both the predicted and the target score are first multiplied
by the per-example marginal std (`batch_mul(std, ·)`) and the squared
differences are reduced along the dimension axis; with `like_w=True` the
reduced squared differences are multiplied by the per-example squared
diffusion coefficient `g2`. -/
def dsm_losses (reduce_mean like_w : Bool) {N d : ℕ}
    (score logp_grad : Fin N → Fin d → ℝ) (std g2 : Fin N → ℝ) :
    Fin N → ℝ :=
  fun b =>
    if like_w then
      reduce_op reduce_mean (fun i => (score b i - logp_grad b i) ^ 2) * g2 b
    else
      reduce_op reduce_mean
        (fun i => (std b * score b i - std b * logp_grad b i) ^ 2)

/-- The scalar the DSM loss function returns: `loss = jnp.mean(losses)`
(line 81), the batch mean of the per-example losses. -/
def dsm_loss (reduce_mean like_w : Bool) {N d : ℕ}
    (score logp_grad : Fin N → Fin d → ℝ) (std g2 : Fin N → ℝ) : ℝ :=
  (∑ b, dsm_losses reduce_mean like_w score logp_grad std g2 b) / (N : ℝ)

/-- The per-example DSM loss exactly as the spec sentence words it for
`like_w=False`: the reduced squared difference scaled by the marginal
standard deviation `std(t)` (to the first power).  Stated for comparison
with `dsm_losses`, which the code defines. -/
def dsm_losses_spec_std (reduce_mean : Bool) {N d : ℕ}
    (score logp_grad : Fin N → Fin d → ℝ) (std : Fin N → ℝ) : Fin N → ℝ :=
  fun b => std b * reduce_op reduce_mean (fun i => (score b i - logp_grad b i) ^ 2)

/-- The final DSM reduction exactly as the spec sentence words it for
`reduce_mean=False`: the half-sum over the batch of the per-example losses.
Stated for comparison with `dsm_loss`, which the code defines. -/
def dsm_loss_spec_half_sum (reduce_mean like_w : Bool) {N d : ℕ}
    (score logp_grad : Fin N → Fin d → ℝ) (std g2 : Fin N → ℝ) : ℝ :=
  0.5 * ∑ b, dsm_losses reduce_mean like_w score logp_grad std g2 b

/-- Modelled from the spec: the Hutchinson divergence estimate produced by
`score_sde.models.get_div_fn` (not part of this repository) for a vector
field with Jacobian `J` at the evaluation point, in the direction noise
`eps`: `div f ~ eps^T (df/dx) eps`. -/
def hutchinson_div {d : ℕ} (J : Fin d → Fin d → ℝ) (eps : Fin d → ℝ) : ℝ :=
  ∑ i, ∑ j, eps i * J i j * eps j

/-- The ISM per-example losses (lines 120-131 of `losses.py`):
`0.5 * squared_norm(score, x_t) + div_score`, where `div_score` is the
Hutchinson estimate for the score field (Jacobian `J b` at `x_t b`) along
the noise `eps b`; with `like_w=True` each per-example loss is further
multiplied by `g2 b`. -/
def ism_losses (like_w : Bool) {N d : ℕ} (M : Manifold d)
    (x_t : Fin N → Vec d) (score : Fin N → Vec d)
    (J : Fin N → Fin d → Fin d → ℝ) (eps : Fin N → Vec d)
    (g2 : Fin N → ℝ) : Fin N → ℝ :=
  fun b =>
    let l := 0.5 * M.squared_norm (score b) (x_t b) + hutchinson_div (J b) (eps b)
    if like_w then l * g2 b else l

/-- The scalar the ISM loss function returns: `loss = jnp.mean(losses)`. -/
def ism_loss (like_w : Bool) {N d : ℕ} (M : Manifold d)
    (x_t : Fin N → Vec d) (score : Fin N → Vec d)
    (J : Fin N → Fin d → Fin d → ℝ) (eps : Fin N → Vec d)
    (g2 : Fin N → ℝ) : ℝ :=
  (∑ b, ism_losses like_w M x_t score J eps g2 b) / (N : ℝ)

/-! ## PRNG key traces of the loss bodies

Each record field holds the key passed to one stochastic draw, read off the
corresponding line of `losses.py`. -/

/-- The keys the DSM loss body (lines 46-67) passes to its stochastic
operations: `t` sampling, `marginal_sample` and the outer score evaluation. -/
structure DSMKeys where
  t_key : Key
  marginal_key : Key
  score_key : Key

/-- Key trace of `get_dsm_loss_fn.loss_fn` (s_zero path): after
`rng, step_rng = split(rng)` the time draw uses `step_rng`; after a second
split, `marginal_sample` (line 56) and the score evaluation
`score_fn(x_t, t, rng=step_rng)` (line 67) both receive the same second
`step_rng`. -/
def dsm_keys (rng : Key) : DSMKeys :=
  let p1 := split rng
  let p2 := split p1.1
  { t_key := p1.2, marginal_key := p2.2, score_key := p2.2 }

/-- The keys the ISM loss body (lines 111-125) passes to its stochastic
operations: `t` sampling, `marginal_sample`, the outer score evaluation, the
Hutchinson noise draw, and the score evaluations inside the divergence
estimate. -/
structure ISMKeys where
  t_key : Key
  marginal_key : Key
  score_key : Key
  noise_key : Key
  div_score_key : Key

/-- Key trace of `get_ism_loss_fn.loss_fn`: the first split's `step_rng`
draws `t` (line 112); the second split's `step_rng` is passed to both
`marginal_sample` (line 117) and `score_fn(x_t, t, rng=step_rng)`
(line 118); the third split's `step_rng` is passed to both
`div_noise` (line 122) and, inside `drift_fn`, every score evaluation of the
divergence estimate (line 123). -/
def ism_keys (rng : Key) : ISMKeys :=
  let p1 := split rng
  let p2 := split p1.1
  let p3 := split p2.1
  { t_key := p1.2
    marginal_key := p2.2
    score_key := p2.2
    noise_key := p3.2
    div_score_key := p3.2 }

/-! ## Moser-flow loss clamping and time sampling -/

/-- `mu = prob_base - div_drift` inside `get_moser_loss_fn.loss_fn.mu`. -/
def moser_mu (prob_base div_drift : ℝ) : ℝ := prob_base - div_drift

/-- The clamped parts `mu_plus = jnp.maximum(eps, mu)` and
`mu_minus = eps - jnp.minimum(eps, mu)` (lines 166-167 of `losses.py`). -/
def moser_mu_parts (eps mu : ℝ) : ℝ × ℝ :=
  (max eps mu, eps - min eps mu)

/-- Modelled from `jax.random.uniform` semantics (external to this
repository): a draw is `minval + u * (maxval - minval)` for a uniform
`u ∈ [0, 1)`. -/
def uniform_sample (minval maxval u : ℝ) : ℝ := minval + u * (maxval - minval)

/-- The per-example time draw of both loss bodies (lines 48-50 and 112-114):
`random.uniform(step_rng, shape, minval=sde.t0 + eps, maxval=sde.tf)`.
The surrounding factories `get_dsm_loss_fn` / `get_ism_loss_fn` run no
validation of `t0`, `tf` or `eps` at construction time. -/
def loss_t_sample (t0 tf eps u : ℝ) : ℝ := uniform_sample (t0 + eps) tf u

/-! ## Concrete instances used by witnesses -/

/-- A one-dimensional manifold whose `random_walk` has no closed form. -/
def fallbackManifold : Manifold 1 :=
  { random_walk := fun _ _ _ => none
    log_heat_kernel := fun _ _ _ => 0
    squared_norm := fun v _ => v 0 ^ 2
    em_step := fun _ x _ _ => x }

/-- A one-dimensional manifold whose `random_walk` always returns the
closed-form point `5`. -/
def closedFormManifold : Manifold 1 :=
  { random_walk := fun _ _ _ => some (fun _ => 5)
    log_heat_kernel := fun _ _ _ => 0
    squared_norm := fun v _ => v 0 ^ 2
    em_step := fun _ x _ _ => x }

/-- A concrete Brownian SDE on the fallback manifold, `[t0, tf] = [0, 1]`. -/
def brownianFallback : Brownian 1 := Brownian.mk fallbackManifold 1 0 0.1 20

/-- A concrete Brownian SDE on the closed-form manifold. -/
def brownianClosedForm : Brownian 1 := Brownian.mk closedFormManifold 1 0 0.1 20

/-! ## Claim theorems -/

/-- C1: for every forward SDE `S` with score function `s_fn`, the reverse
SDE's time interval is the forward interval with endpoints swapped
(`t0' = S.tf`, `tf' = S.t0`), and `coefficients(x, t)` returns the forward
diffusion coefficient unchanged together with the drift
`forward_drift - G Gᵗ score`: a full matrix contraction when
`S.full_diffusion_matrix` holds, an elementwise scalar product otherwise. -/
theorem reverse_coefficients_anderson {σ : Type} {n : ℕ} [SDEOps σ n]
    (S : σ) (s_fn : Vec n → ℝ → Vec n) (x : Vec n) (t : ℝ) :
    (reverseSDE S s_fn).base.t0 = SDEOps.tf S ∧
    (reverseSDE S s_fn).base.tf = SDEOps.t0 S ∧
    (∀ fd G, SDEOps.full_diffusion_matrix S = true →
      SDEOps.coefficients S x t = (fd, DiffCoeff.matrix G) →
      (reverseSDE S s_fn).coefficients x t =
        some (fun i => fd i - ∑ k, (∑ j, G i j * G k j) * s_fn x t k,
              DiffCoeff.matrix G)) ∧
    (∀ fd g, SDEOps.full_diffusion_matrix S = false →
      SDEOps.coefficients S x t = (fd, DiffCoeff.scalar g) →
      (reverseSDE S s_fn).coefficients x t =
        some (fun i => fd i - g * g * s_fn x t i, DiffCoeff.scalar g)) := by
  refine ⟨rfl, rfl, ?_, ?_⟩
  · intro fd G hflag hco
    simp [ReverseBrownian.coefficients, reverseSDE, hflag, hco]
  · intro fd g hflag hco
    simp [ReverseBrownian.coefficients, reverseSDE, hflag, hco]

/-- C1 witness: the reverse of the concrete scalar-diffusion Brownian SDE at
`x = 0`, `t = 0`, with constant score `3`, has exactly the corrected drift
and the unchanged diffusion coefficient. -/
theorem reverse_coefficients_anderson_witness :
    (reverseSDE brownianFallback (fun _ _ _ => 3)).coefficients (fun _ => 0) 0 =
      some (fun _ => 0 -
              Real.sqrt (brownianFallback.beta_t 0) *
              Real.sqrt (brownianFallback.beta_t 0) * 3,
            DiffCoeff.scalar (Real.sqrt (brownianFallback.beta_t 0))) :=
  (reverse_coefficients_anderson brownianFallback (fun _ _ _ => 3)
      (fun _ => 0) 0).2.2.2 (fun _ => 0)
    (Real.sqrt (brownianFallback.beta_t 0)) rfl rfl

/-- C2: reversing twice is the identity: `reverse(X.reverse(s_fn))` returns
the original object `X`, so the drift of the doubly-reversed SDE at any
`(x, t)` is the original forward drift. -/
theorem reverse_reverse_id {σ : Type} {n : ℕ} [SDEOps σ n] (X : σ)
    (s_fn : Vec n → ℝ → Vec n) (x : Vec n) (t : ℝ) :
    (reverseSDE X s_fn).reverse = X ∧
    (SDEOps.coefficients ((reverseSDE X s_fn).reverse) x t).1 =
      (SDEOps.coefficients X x t).1 :=
  ⟨rfl, rfl⟩

/-- C6: for every `eps` and every real `mu = prob_base - div_drift`, the
Moser clamped parts satisfy `mu_plus = max(eps, mu) ≥ eps` and
`mu_minus = eps - min(eps, mu) ≥ 0`. -/
theorem moser_mu_parts_bounds (eps prob_base div_drift : ℝ) :
    (moser_mu_parts eps (moser_mu prob_base div_drift)).1 =
      max eps (moser_mu prob_base div_drift) ∧
    (moser_mu_parts eps (moser_mu prob_base div_drift)).2 =
      eps - min eps (moser_mu prob_base div_drift) ∧
    eps ≤ (moser_mu_parts eps (moser_mu prob_base div_drift)).1 ∧
    0 ≤ (moser_mu_parts eps (moser_mu prob_base div_drift)).2 :=
  ⟨rfl, rfl, le_max_left _ _, sub_nonneg.mpr (min_le_left _ _)⟩

/-- C8: `marginal_sample` returns the manifold's closed-form random-walk
sample whenever one exists, and falls back to the 100-step fixed-step
Euler-Maruyama integration from `t0` to `t` exactly when `random_walk`
returns `none`; being a total function it raises no error in either case. -/
theorem marginal_sample_closed_form_or_fallback {n : ℕ} (B : Brownian n)
    (rng : Key) (x : Vec n) (t : ℝ) :
    (∀ p, B.manifold.random_walk rng x t = some p →
      B.marginal_sample rng x t = p) ∧
    (B.manifold.random_walk rng x t = none →
      B.marginal_sample rng x t = pc_sampler B 100 rng x t) := by
  constructor
  · intro p hp
    simp [Brownian.marginal_sample, hp]
  · intro hp
    simp [Brownian.marginal_sample, hp]

/-- C8 witness: on the closed-form manifold the sample is the closed-form
point; on the fallback manifold it is the 100-step numerical integration. -/
theorem marginal_sample_closed_form_or_fallback_witness :
    brownianClosedForm.marginal_sample [] (fun _ => 0) 1 = (fun _ => (5 : ℝ)) ∧
    brownianFallback.marginal_sample [] (fun _ => 0) 1 =
      pc_sampler brownianFallback 100 [] (fun _ => 0) 1 :=
  ⟨(marginal_sample_closed_form_or_fallback brownianClosedForm []
      (fun _ => 0) 1).1 (fun _ => 5) rfl,
   (marginal_sample_closed_form_or_fallback brownianFallback []
      (fun _ => 0) 1).2 rfl⟩

/-- C10: a reverse SDE built from a forward Brownian SDE with arbitrary
schedule `(b0, bf)` carries the default schedule `beta_0 = 0.1`,
`beta_f = 20` in its inherited state, so its inherited `beta_t`,
`marginal_prob` and `marginal_log_prob` follow the default schedule (on the
reversed interval), while its `coefficients` delegate to the forward SDE's
schedule `b0 .. bf`. -/
theorem reverse_uses_default_schedule {n : ℕ} (M : Manifold n)
    (tfwd t0 b0 bf : ℝ) (s_fn : Vec n → ℝ → Vec n) (x0 x : Vec n) (t : ℝ) :
    (Brownian.reverse (Brownian.mk M tfwd t0 b0 bf) s_fn).base.beta_0 = 0.1 ∧
    (Brownian.reverse (Brownian.mk M tfwd t0 b0 bf) s_fn).base.beta_f = 20 ∧
    (Brownian.reverse (Brownian.mk M tfwd t0 b0 bf) s_fn).beta_t t =
      0.1 + ((t - tfwd) / (t0 - tfwd)) * (20 - 0.1) ∧
    (Brownian.reverse (Brownian.mk M tfwd t0 b0 bf) s_fn).marginal_prob x t =
      (fun _ => 0,
       Real.sqrt (1 - Real.exp (2 *
         (-(0.25) * t ^ 2 * (20 - 0.1) - 0.5 * t * 0.1)))) ∧
    (Brownian.reverse (Brownian.mk M tfwd t0 b0 bf) s_fn).marginal_log_prob
        x0 x t =
      M.log_heat_kernel x0 x (2 * (0.25 * t ^ 2 * (20 - 0.1) + 0.5 * t * 0.1)) ∧
    (Brownian.reverse (Brownian.mk M tfwd t0 b0 bf) s_fn).coefficients x t =
      some (fun i => 0 -
              Real.sqrt ((Brownian.mk M tfwd t0 b0 bf).beta_t t) *
              Real.sqrt ((Brownian.mk M tfwd t0 b0 bf).beta_t t) * s_fn x t i,
            DiffCoeff.scalar
              (Real.sqrt ((Brownian.mk M tfwd t0 b0 bf).beta_t t))) := by
  refine ⟨rfl, rfl, rfl, rfl, rfl, ?_⟩
  simp [Brownian.reverse, reverseSDE, ReverseBrownian.coefficients,
    Brownian.coefficients, SDEOps.coefficients, SDEOps.full_diffusion_matrix]

/-- Pulling a constant factor out of either reduction (`jnp.mean` or the
half-sum) along the dimension axis. -/
lemma reduce_op_const_mul (reduce_mean : Bool) {d : ℕ} (c : ℝ)
    (v : Fin d → ℝ) :
    reduce_op reduce_mean (fun i => c * v i) = c * reduce_op reduce_mean v := by
  cases reduce_mean <;>
    simp only [reduce_op, Bool.false_eq_true, if_false, if_true,
      ← Finset.mul_sum] <;> ring

/-- C3 (amended): the DSM per-example loss is the coordinatewise squared
difference between predicted and target score reduced over dimensions by the
configured `reduce_op`, scaled by the squared marginal standard deviation
`std(t)^2` when `like_w = False` (both scores are premultiplied by `std`),
and by the squared diffusion coefficient `g(t)^2` when `like_w = True`. -/
theorem dsm_losses_scaling (reduce_mean : Bool) {N d : ℕ}
    (score logp_grad : Fin N → Fin d → ℝ) (std g2 : Fin N → ℝ) (b : Fin N) :
    dsm_losses reduce_mean false score logp_grad std g2 b =
      std b ^ 2 *
        reduce_op reduce_mean (fun i => (score b i - logp_grad b i) ^ 2) ∧
    dsm_losses reduce_mean true score logp_grad std g2 b =
      reduce_op reduce_mean (fun i => (score b i - logp_grad b i) ^ 2) *
        g2 b := by
  constructor
  · have h : (fun i => (std b * score b i - std b * logp_grad b i) ^ 2) =
        fun i => std b ^ 2 * (score b i - logp_grad b i) ^ 2 :=
      funext fun i => by ring
    simp only [dsm_losses, Bool.false_eq_true, if_false, h,
      reduce_op_const_mul]
  · simp only [dsm_losses, if_true]

/-- C3 counterexample: one example in one dimension with predicted score 2,
target score 0 and `std = 2`.  The code's per-example loss (`like_w=False`)
is `(2*2 - 2*0)^2 = 16`; the loss scaled by `std` to the first power, as the
claim words it, is `2 * (2-0)^2 = 8`. -/
theorem dsm_losses_scaling_cex :
    dsm_losses true false ((fun _ _ => 2) : Fin 1 → Fin 1 → ℝ) (fun _ _ => 0)
        (fun _ => 2) (fun _ => 1) 0 = 16 ∧
    dsm_losses_spec_std true ((fun _ _ => 2) : Fin 1 → Fin 1 → ℝ)
        (fun _ _ => 0) (fun _ => 2) 0 = 8 ∧
    (16 : ℝ) ≠ 8 := by
  refine ⟨?_, ?_, by norm_num⟩ <;>
    simp [dsm_losses, dsm_losses_spec_std, reduce_op] <;> norm_num

/-- C4: the ISM per-example loss is
`0.5 * squared_norm(score, x_t) + div_score` with `div_score` the Hutchinson
estimate `eps^T (dscore/dx) eps` of the score field's divergence along the
drawn noise, multiplied by the squared diffusion coefficient `g(t)^2`
exactly when `like_w = True`. -/
theorem ism_losses_formula (like_w : Bool) {N d : ℕ} (M : Manifold d)
    (x_t score : Fin N → Vec d) (J : Fin N → Fin d → Fin d → ℝ)
    (eps : Fin N → Vec d) (g2 : Fin N → ℝ) (b : Fin N) :
    ism_losses like_w M x_t score J eps g2 b =
      (0.5 * M.squared_norm (score b) (x_t b) +
        ∑ i, ∑ j, eps b i * J b i j * eps b j) *
      (if like_w then g2 b else 1) := by
  cases like_w <;> simp [ism_losses, hutchinson_div]

/-- C5 (amended): in the ISM loss the Hutchinson noise key is freshly split
and distinct from the time-sampling and marginal-sampling keys, and the key
threaded into the score evaluations inside one divergence estimate is held
fixed; but keys are reused across semantically different draws: the
marginal-sampling key is also the outer score-evaluation key (in DSM too),
and the noise key itself is the key passed to the score evaluations inside
the divergence estimate. -/
theorem loss_key_discipline (rng : Key) :
    (ism_keys rng).t_key ≠ (ism_keys rng).marginal_key ∧
    (ism_keys rng).noise_key ≠ (ism_keys rng).t_key ∧
    (ism_keys rng).noise_key ≠ (ism_keys rng).marginal_key ∧
    (ism_keys rng).score_key = (ism_keys rng).marginal_key ∧
    (ism_keys rng).div_score_key = (ism_keys rng).noise_key ∧
    (dsm_keys rng).score_key = (dsm_keys rng).marginal_key ∧
    (dsm_keys rng).t_key ≠ (dsm_keys rng).marginal_key := by
  refine ⟨?_, ?_, ?_, rfl, rfl, rfl, ?_⟩ <;>
    · simp only [ism_keys, dsm_keys, split]
      intro h
      have hl := congrArg List.length h
      simp only [List.length_cons] at hl
      omega

/-- C5 counterexample: at the concrete key `[]`, the ISM loss passes the very
key that drew the Hutchinson noise to the score evaluations inside the
divergence estimate, and both DSM and ISM pass the marginal-sampling key to
the outer score evaluation — keys reused for semantically different draws. -/
theorem loss_key_reuse_cex :
    (ism_keys []).noise_key = (ism_keys []).div_score_key ∧
    (ism_keys []).marginal_key = (ism_keys []).score_key ∧
    (dsm_keys []).marginal_key = (dsm_keys []).score_key :=
  ⟨rfl, rfl, rfl⟩

/-- C7 (amended): the scalar the DSM loss returns is the batch mean of the
per-example losses for both values of `reduce_mean`; `reduce_mean` instead
selects the per-example reduction over dimensions — mean when `True`,
half-sum when `False` (shown here unfolded for `like_w = True`). -/
theorem dsm_loss_batch_mean (reduce_mean like_w : Bool) {N d : ℕ}
    (score logp_grad : Fin N → Fin d → ℝ) (std g2 : Fin N → ℝ) :
    dsm_loss reduce_mean like_w score logp_grad std g2 =
      (∑ b, dsm_losses reduce_mean like_w score logp_grad std g2 b) /
        (N : ℝ) ∧
    dsm_loss false true score logp_grad std g2 =
      (∑ b, 0.5 * (∑ i, (score b i - logp_grad b i) ^ 2) * g2 b) / (N : ℝ) ∧
    dsm_loss true true score logp_grad std g2 =
      (∑ b, (∑ i, (score b i - logp_grad b i) ^ 2) / (d : ℝ) * g2 b) /
        (N : ℝ) := by
  refine ⟨rfl, ?_, ?_⟩ <;> simp [dsm_loss, dsm_losses, reduce_op]

/-- C7 counterexample: a batch of one example in one dimension with
`reduce_mean = False`, `like_w = True`, predicted score 2, target 0,
`g2 = 1`.  The per-example loss is `0.5 * 4 = 2`; the code returns the batch
mean `2`, while the half-sum over the batch, as the claim words it,
is `1`. -/
theorem dsm_loss_batch_mean_cex :
    dsm_loss false true ((fun _ _ => 2) : Fin 1 → Fin 1 → ℝ) (fun _ _ => 0)
        (fun _ => 1) (fun _ => 1) = 2 ∧
    dsm_loss_spec_half_sum false true ((fun _ _ => 2) : Fin 1 → Fin 1 → ℝ)
        (fun _ _ => 0) (fun _ => 1) (fun _ => 1) = 1 ∧
    (2 : ℝ) ≠ 1 := by
  refine ⟨?_, ?_, by norm_num⟩ <;>
    simp [dsm_loss, dsm_loss_spec_half_sum, dsm_losses, reduce_op] <;>
    norm_num

/-- C9: with `t0 = 0`, `tf = 1`, `eps = 2` the bound `t0 + eps >= tf` holds,
yet the loss-function factories run no construction-time validation (there
is no `ConfigurationError` anywhere in the code): the loss body still draws
`t = minval + u*(maxval - minval) = 3/2` at `u = 1/2`, a time outside
`(t0, tf]`, silently. -/
theorem loss_factory_no_config_check :
    (0 : ℝ) + 2 ≥ 1 ∧
    loss_t_sample 0 1 2 (1 / 2) = 3 / 2 ∧
    ¬ loss_t_sample 0 1 2 (1 / 2) ≤ 1 ∧
    (0 : ℝ) ≤ 1 / 2 ∧ (1 : ℝ) / 2 < 1 := by
  norm_num [loss_t_sample, uniform_sample]
